import Mathlib

/-!
Verification of the invoice-processing workflow core.

Shallow embedding of the match-score computation, the approval policy, the
posting stage, the tool selector, the review/cancel store operations, the
conditional routing and the vendor-name normalization, each translated from
the corresponding backend source file.  Monetary amounts, scores, thresholds
and tolerances are modeled as rationals; Python dictionaries become explicit
arguments or records whose fields carry the `dict.get` defaults.
-/

namespace InvoiceGraph

/-! ## Match-score computation

`calculate_match_score` lives in `backend/app/utils/helpers.py`; the
`compute_match_score` ability in `backend/app/mcp/common_server.py`; the
MATCH_TWO_WAY stage in `backend/app/graph/nodes/match.py`.
-/

/-- The percentage difference `abs(invoice_amount - po_amount) / po_amount * 100`
computed inside both `calculate_match_score` and `_compute_match_score`. -/
def diff_pct (invoice_amount po_amount : ℚ) : ℚ :=
  |invoice_amount - po_amount| / po_amount * 100

/-- `calculate_match_score` from `backend/app/utils/helpers.py`.
The result is `none` exactly where Python raises `ZeroDivisionError`, namely
when the tolerance branch is taken with `tolerance_pct == 0`; every other
path returns the score. -/
def calculate_match_score (invoice_amount po_amount tolerance_pct : ℚ) : Option ℚ :=
  if po_amount = 0 then
    some (if invoice_amount ≠ 0 then 0 else 1)
  else
    if diff_pct invoice_amount po_amount ≤ tolerance_pct then
      if tolerance_pct = 0 then none
      else some (1 - diff_pct invoice_amount po_amount / tolerance_pct * (1 / 10))
    else some (max 0 (1 - diff_pct invoice_amount po_amount / 100))

/-- The `match_score` written by `match_node`
(`backend/app/graph/nodes/match.py`, lines 43-48): `0.0` when `matched_pos`
is empty, else `calculate_match_score` applied to the summed PO amounts.
A purchase order is represented by its `amount` entry, the only field the
computation reads (`po.get("amount", 0)`). -/
def match_node_score (invoice_amount : ℚ) (matched_pos : List ℚ)
    (tolerance_pct : ℚ) : Option ℚ :=
  if matched_pos = [] then some 0
  else calculate_match_score invoice_amount matched_pos.sum tolerance_pct

/-- The two values of `config.MatchResult`. -/
inductive MatchResult where
  | MATCHED
  | FAILED
deriving DecidableEq, Repr

/-- The `match_result` assigned by `match_node`:
`MATCHED if score >= threshold else FAILED`. -/
def match_node_result (invoice_amount : ℚ) (matched_pos : List ℚ)
    (threshold tolerance_pct : ℚ) : Option MatchResult :=
  (match_node_score invoice_amount matched_pos tolerance_pct).map
    (fun score => if threshold ≤ score then MatchResult.MATCHED else MatchResult.FAILED)

/-- The `score`/`matched` pair returned by the `compute_match_score` ability. -/
structure ComputeMatchOutput where
  score : ℚ
  matched : Bool
deriving DecidableEq, Repr

/-- `CommonServer._compute_match_score` from
`backend/app/mcp/common_server.py` (lines 121-147).  Parameters mirror the
parameter map: `invoice_amount` (default 0), the list of purchase-order
amounts (`po.get("amount", 0)` each), `threshold` (default 0.9) and
`tolerance_pct` (default 5).  An empty PO list short-circuits to score 0 /
not matched; otherwise `po_total == 0` yields score `0.0` unconditionally,
and the remaining branches follow the tolerance curve.  As in
`calculate_match_score`, `none` marks the `ZeroDivisionError` path. -/
def compute_match_score (invoice_amount : ℚ) (purchase_orders : List ℚ)
    (threshold tolerance_pct : ℚ) : Option ComputeMatchOutput :=
  if purchase_orders = [] then some ⟨0, false⟩
  else
    let po_total := purchase_orders.sum
    let score? : Option ℚ :=
      if po_total = 0 then some 0
      else
        if diff_pct invoice_amount po_total ≤ tolerance_pct then
          if tolerance_pct = 0 then none
          else some (1 - diff_pct invoice_amount po_total / tolerance_pct * (1 / 10))
        else some (max 0 (1 - diff_pct invoice_amount po_total / 100))
    score?.map (fun s => ⟨s, decide (threshold ≤ s)⟩)

/-- Modelled from the spec: the §4.3 two-branch tolerance curve for
`po_total > 0` — `score = 1 − (diff_pct / tolerance_pct) · 0.1` when
`diff_pct ≤ tolerance_pct`, else `max(0, 1 − diff_pct/100)`.  Stated from the
spec's words, to be compared against the implementation. -/
def spec_match_curve (invoice_amount po_total tolerance_pct : ℚ) : ℚ :=
  if diff_pct invoice_amount po_total ≤ tolerance_pct then
    1 - diff_pct invoice_amount po_total / tolerance_pct * (1 / 10)
  else
    max 0 (1 - diff_pct invoice_amount po_total / 100)

/-- C1 counterexample: at the parameter map `invoice_amount = 0`,
`purchase_orders = [{amount: 0}]` (non-empty, amounts summing to 0) the
ability returns score `0.0`, not the `1.0` the claim requires for
`invoice_amount == 0`. -/
theorem compute_match_score_zero_po_counterexample :
    (compute_match_score 0 [0] (9 / 10) 5).map ComputeMatchOutput.score = some 0 ∧
    (compute_match_score 0 [0] (9 / 10) 5).map ComputeMatchOutput.score ≠ some 1 := by
  constructor
  · norm_num [compute_match_score]
  · norm_num [compute_match_score]

/-- C1 (amended): for every parameter map with a non-empty
`purchase_orders` list, if the amounts sum to 0 the returned score is `0.0`
regardless of `invoice_amount`; and whenever the sum is positive and a score
is returned, it equals the §4.3 two-branch tolerance curve. -/
theorem compute_match_score_amended (invoice_amount : ℚ) (purchase_orders : List ℚ)
    (threshold tolerance_pct : ℚ) (hne : purchase_orders ≠ []) :
    (purchase_orders.sum = 0 →
      (compute_match_score invoice_amount purchase_orders threshold tolerance_pct).map
        ComputeMatchOutput.score = some 0) ∧
    (0 < purchase_orders.sum →
      ∀ out, compute_match_score invoice_amount purchase_orders threshold tolerance_pct
          = some out →
        out.score = spec_match_curve invoice_amount purchase_orders.sum tolerance_pct) := by
  constructor
  · intro hsum
    simp [compute_match_score, hne, hsum]
  · intro hsum out hout
    have hnz : purchase_orders.sum ≠ 0 := ne_of_gt hsum
    by_cases hle : diff_pct invoice_amount purchase_orders.sum ≤ tolerance_pct
    · by_cases htz : tolerance_pct = 0
      · simp only [compute_match_score, if_neg hne, if_neg hnz, if_pos hle,
          if_pos htz, Option.map_none'] at hout
        exact absurd hout (by simp)
      · simp only [compute_match_score, if_neg hne, if_neg hnz, if_pos hle, if_neg htz,
          Option.map_some', Option.some.injEq] at hout
        subst hout
        simp [spec_match_curve, hle]
    · simp only [compute_match_score, if_neg hne, if_neg hnz, if_neg hle,
        Option.map_some', Option.some.injEq] at hout
      subst hout
      simp [spec_match_curve, hle]

/-- Witness for `compute_match_score_amended` at concrete inputs:
`invoice_amount = 0, purchase_orders = [0]` for the zero-total branch and
`invoice_amount = 10, purchase_orders = [10]` for the positive-total branch. -/
theorem compute_match_score_amended_witness :
    (compute_match_score 0 [0] (9 / 10) 5).map ComputeMatchOutput.score = some 0 ∧
    (ComputeMatchOutput.mk 1 true).score = spec_match_curve 10 (List.sum [10]) 5 :=
  ⟨(compute_match_score_amended 0 [0] (9 / 10) 5 (by decide)).1 (by norm_num),
   (compute_match_score_amended 10 [10] (9 / 10) 5 (by decide)).2 (by norm_num)
     ⟨1, true⟩ (by norm_num [compute_match_score, diff_pct])⟩

/-- C4: boundary values of the match-score curve computed by MATCH_TWO_WAY.
For a non-empty PO list with positive total: whenever a score is produced and
`diff_pct` equals `tolerance_pct`, that score is exactly `0.9`; and when the
PO total equals the invoice amount, at the default tolerance `5.0` the score
is `1.0` and the match result at the default threshold `0.90` is MATCHED. -/
theorem match_node_score_boundary :
    (∀ (invoice_amount : ℚ) (matched_pos : List ℚ) (tolerance_pct s : ℚ),
        matched_pos ≠ [] → 0 < matched_pos.sum →
        diff_pct invoice_amount matched_pos.sum = tolerance_pct →
        match_node_score invoice_amount matched_pos tolerance_pct = some s →
        s = 9 / 10) ∧
    (∀ (invoice_amount : ℚ) (matched_pos : List ℚ),
        matched_pos ≠ [] → 0 < matched_pos.sum → matched_pos.sum = invoice_amount →
        match_node_score invoice_amount matched_pos 5 = some 1 ∧
        match_node_result invoice_amount matched_pos (9 / 10) 5
          = some MatchResult.MATCHED) := by
  constructor
  · intro invoice_amount matched_pos tolerance_pct s hne hpos hdiff hs
    have hnz : matched_pos.sum ≠ 0 := ne_of_gt hpos
    simp only [match_node_score, if_neg hne, calculate_match_score, if_neg hnz, hdiff,
      le_refl, if_pos] at hs
    split at hs
    · exact absurd hs (by simp)
    · rename_i hz
      simp only [Option.some.injEq] at hs
      rw [← hs, div_self hz]
      norm_num
  · intro invoice_amount matched_pos hne hpos hsum
    have hnz : matched_pos.sum ≠ 0 := ne_of_gt hpos
    have hd : diff_pct invoice_amount matched_pos.sum = 0 := by
      unfold diff_pct
      rw [hsum]
      simp
    have hscore : match_node_score invoice_amount matched_pos 5 = some 1 := by
      simp only [match_node_score, if_neg hne, calculate_match_score, if_neg hnz, hd]
      norm_num
    refine ⟨hscore, ?_⟩
    simp only [match_node_result, hscore, Option.map_some]
    norm_num

/-- Witness for `match_node_score_boundary`: `invoice 105 vs PO 100` at
tolerance 5 sits exactly on the boundary (`diff_pct = 5`) and scores `0.9`;
`invoice 100 vs PO 100` scores `1.0` and is MATCHED. -/
theorem match_node_score_boundary_witness :
    (9 / 10 : ℚ) = 9 / 10 ∧
    (match_node_score 100 [100] 5 = some 1 ∧
     match_node_result 100 [100] (9 / 10) 5 = some MatchResult.MATCHED) :=
  ⟨match_node_score_boundary.1 105 [100] 5 (9 / 10) (by decide) (by norm_num)
      (by norm_num [diff_pct]) (by norm_num [match_node_score, calculate_match_score, diff_pct]),
   match_node_score_boundary.2 100 [100] (by decide) (by norm_num) (by norm_num)⟩

/-- C8 counterexample: a PO list with a negative total escapes `[0, 1]` —
`invoice 100` against `matched_pos = [{amount: -100}]` at tolerance 5 gives
`diff_pct = -200 ≤ 5`, hence score `1 - (-200/5)·0.1 = 5.0 > 1`. -/
theorem match_node_score_negative_po_counterexample :
    match_node_score 100 [-100] 5 = some 5 ∧ ¬((5 : ℚ) ≤ 1) := by
  constructor
  · norm_num [match_node_score, calculate_match_score, diff_pct]
  · norm_num

/-- C8 (amended): whenever MATCH_TWO_WAY produces a score from a PO list
whose amounts sum to a non-negative value, under a non-negative tolerance the
score lies in `[0, 1]`.  (A negative PO total can push the score above 1, see
the counterexample.) -/
theorem match_node_score_bounds (invoice_amount : ℚ) (matched_pos : List ℚ)
    (tolerance_pct : ℚ) (htol : 0 ≤ tolerance_pct) (hsum : 0 ≤ matched_pos.sum) :
    ∀ s, match_node_score invoice_amount matched_pos tolerance_pct = some s →
      0 ≤ s ∧ s ≤ 1 := by
  intro s hs
  by_cases hne : matched_pos = []
  · simp only [match_node_score, if_pos hne, Option.some.injEq] at hs
    subst hs
    exact ⟨le_refl 0, by norm_num⟩
  · simp only [match_node_score, if_neg hne, calculate_match_score] at hs
    by_cases hz : matched_pos.sum = 0
    · rw [if_pos hz] at hs
      simp only [Option.some.injEq] at hs
      split at hs <;> rw [← hs] <;> norm_num
    · rw [if_neg hz] at hs
      have hpos : 0 < matched_pos.sum := lt_of_le_of_ne hsum (Ne.symm hz)
      have hd : 0 ≤ diff_pct invoice_amount matched_pos.sum :=
        mul_nonneg (div_nonneg (abs_nonneg _) hpos.le) (by norm_num)
      split at hs
      · rename_i hle
        split at hs
        · exact absurd hs (by simp)
        · rename_i htz
          have htpos : 0 < tolerance_pct := lt_of_le_of_ne htol (Ne.symm htz)
          simp only [Option.some.injEq] at hs
          have h1 : diff_pct invoice_amount matched_pos.sum / tolerance_pct ≤ 1 :=
            (div_le_one htpos).mpr hle
          have h2 : 0 ≤ diff_pct invoice_amount matched_pos.sum / tolerance_pct :=
            div_nonneg hd htpos.le
          constructor <;> rw [← hs] <;> nlinarith
      · simp only [Option.some.injEq] at hs
        constructor
        · rw [← hs]; exact le_max_left _ _
        · rw [← hs]
          apply max_le (by norm_num)
          have : 0 ≤ diff_pct invoice_amount matched_pos.sum / 100 := by positivity
          linarith

/-- Witness for `match_node_score_bounds`: `invoice 1` against `PO 2` at
tolerance 5 scores `0.5`, which the theorem places in `[0, 1]`. -/
theorem match_node_score_bounds_witness : (0 : ℚ) ≤ 1 / 2 ∧ (1 / 2 : ℚ) ≤ 1 :=
  match_node_score_bounds 1 [2] 5 (by norm_num) (by norm_num) (1 / 2)
    (by norm_num [match_node_score, calculate_match_score, diff_pct])

/-! ## Approval

`approve_node` lives in `backend/app/graph/nodes/approve.py`; the
`apply_approval_policy` ability in `backend/app/mcp/common_server.py`
(lines 165-175).
-/

/-- Result map of `CommonServer._apply_approval_policy`. -/
structure PolicyResult where
  approved : Bool
  method : String
  approver : String
deriving DecidableEq, Repr

/-- `CommonServer._apply_approval_policy`: auto-approves iff
`amount <= 10000 and risk_score < 0.5`. -/
def apply_approval_policy (amount risk_score : ℚ) : PolicyResult :=
  if amount ≤ 10000 ∧ risk_score < 1 / 2 then
    ⟨true, "auto", "SYSTEM"⟩
  else
    ⟨false, "escalated", "finance_manager"⟩

/-- The `approval_status`/`approver_id` fields of the APPROVE stage delta. -/
structure ApprovalDelta where
  approval_status : String
  approver_id : String
deriving DecidableEq, Repr

/-- `approve_node` from `backend/app/graph/nodes/approve.py` (lines 36-53).
The node calls `apply_approval_policy` through the ability router but
discards that result; the delta is decided by the local comparison
`invoice_amount <= AUTO_APPROVE_THRESHOLD` alone.  `invoice_amount` is
`raw_payload.get("amount", 0)` and `risk_score` is
`state.get("risk_score", 0)`; the latter is carried here to show it does not
influence the outcome. -/
def approve_node (invoice_amount risk_score : ℚ) : ApprovalDelta :=
  let _policy := apply_approval_policy invoice_amount risk_score
  if invoice_amount ≤ 10000 then
    ⟨"AUTO_APPROVED", "SYSTEM"⟩
  else
    ⟨"ESCALATED", "finance_manager"⟩

/-- C2 counterexample: at `invoice_amount = 5000, risk_score = 0.9` the
APPROVE stage returns AUTO_APPROVED/SYSTEM even though the claim's condition
`amount ≤ 10000 AND risk_score < 0.5` is violated (`0.9 ≥ 0.5`), so the
claimed equivalence fails. -/
theorem approve_node_risk_ignored_counterexample :
    approve_node 5000 (9 / 10) = ⟨"AUTO_APPROVED", "SYSTEM"⟩ ∧
    ¬((5000 : ℚ) ≤ 10000 ∧ (9 / 10 : ℚ) < 1 / 2) := by
  constructor
  · norm_num [approve_node, apply_approval_policy]
  · norm_num

/-- C2 (amended): the APPROVE stage auto-approves if and only if the invoice
amount is ≤ 10000, regardless of `risk_score`; in every other case it
escalates to `finance_manager`.  The `apply_approval_policy` ability (whose
result the stage discards) is the component that tests the conjunction
`amount ≤ 10000 AND risk_score < 0.5`. -/
theorem approve_node_amended (invoice_amount risk_score : ℚ) :
    (approve_node invoice_amount risk_score = ⟨"AUTO_APPROVED", "SYSTEM"⟩ ↔
      invoice_amount ≤ 10000) ∧
    (approve_node invoice_amount risk_score = ⟨"ESCALATED", "finance_manager"⟩ ↔
      ¬invoice_amount ≤ 10000) ∧
    ((apply_approval_policy invoice_amount risk_score).approved = true ↔
      (invoice_amount ≤ 10000 ∧ risk_score < 1 / 2)) := by
  refine ⟨?_, ?_, ?_⟩
  · unfold approve_node apply_approval_policy
    split <;> simp_all
  · unfold approve_node apply_approval_policy
    split <;> simp_all
  · unfold apply_approval_policy
    split <;> simp_all

/-- Witness for `approve_node_amended`: `amount 5000, risk 0.9` is
AUTO_APPROVED by the stage while the ability below it does not approve. -/
theorem approve_node_amended_witness :
    approve_node 5000 (9 / 10) = ⟨"AUTO_APPROVED", "SYSTEM"⟩ ∧
    ¬(apply_approval_policy 5000 (9 / 10)).approved = true :=
  ⟨(approve_node_amended 5000 (9 / 10)).1.mpr (by norm_num),
   fun h => absurd ((approve_node_amended 5000 (9 / 10)).2.2.mp h).2 (by norm_num)⟩

/-! ## Posting

`posting_node` lives in `backend/app/graph/nodes/posting.py`; the
`post_to_erp` and `schedule_payment` abilities in
`backend/app/mcp/atlas_server.py` (lines 174-195).
-/

/-- The `posted`/`erp_txn_id`/`scheduled_payment_id` fields of the POSTING
stage delta. -/
structure PostingDelta where
  posted : Bool
  erp_txn_id : String
  scheduled_payment_id : String
deriving DecidableEq, Repr

/-- `posting_node` from `backend/app/graph/nodes/posting.py` (lines 13-61).
`backend_transaction_id` and `backend_payment_id` are the `transaction_id`
and `payment_id` returned by the `post_to_erp` / `schedule_payment`
abilities; `txn_hex` and `pay_hex` are the fresh hex strings drawn by the two
`generate_id` calls (`uuid4().hex[:16]`).  The node builds its ids with
`generate_id("ERP-TXN")` and `generate_id("PAY")` and never reads the backend
ids. -/
def posting_node (backend_transaction_id backend_payment_id txn_hex pay_hex : String) :
    PostingDelta :=
  { posted := true
    erp_txn_id := "ERP-TXN_" ++ txn_hex
    scheduled_payment_id := "PAY_" ++ pay_hex }

/-- C3 counterexample: a POSTING run in which `post_to_erp` returned
transaction id `ERP-TXN-11111111` and `schedule_payment` returned payment id
`PAY-22222222`, while `generate_id` drew `aaaaaaaaaaaaaaaa` and
`bbbbbbbbbbbbbbbb`: the delta carries the locally minted ids, not the
backend-returned ones. -/
theorem posting_node_backend_id_counterexample :
    (posting_node "ERP-TXN-11111111" "PAY-22222222"
        "aaaaaaaaaaaaaaaa" "bbbbbbbbbbbbbbbb").erp_txn_id ≠ "ERP-TXN-11111111" ∧
    (posting_node "ERP-TXN-11111111" "PAY-22222222"
        "aaaaaaaaaaaaaaaa" "bbbbbbbbbbbbbbbb").scheduled_payment_id ≠ "PAY-22222222" := by
  constructor <;> decide

/-- C3 (amended): the POSTING delta always carries the locally minted ids
`ERP-TXN_<hex>` and `PAY_<hex>` and sets `posted = true`; the backend-returned
transaction and payment ids have no influence on the delta (the locally
minted id wins, contrary to the spec's mandate). -/
theorem posting_node_amended (backend_transaction_id backend_payment_id : String)
    (backend_transaction_id' backend_payment_id' : String) (txn_hex pay_hex : String) :
    posting_node backend_transaction_id backend_payment_id txn_hex pay_hex
      = posting_node backend_transaction_id' backend_payment_id' txn_hex pay_hex ∧
    (posting_node backend_transaction_id backend_payment_id txn_hex pay_hex).posted = true ∧
    (posting_node backend_transaction_id backend_payment_id txn_hex pay_hex).erp_txn_id
      = "ERP-TXN_" ++ txn_hex ∧
    (posting_node backend_transaction_id backend_payment_id txn_hex pay_hex).scheduled_payment_id
      = "PAY_" ++ pay_hex :=
  ⟨rfl, rfl, rfl, rfl⟩

/-! ## Conditional routing and the HITL decision stage

`route_after_match` / `route_after_hitl` live in
`backend/app/graph/routing.py`; the edge label maps in
`backend/app/graph/builder.py` (lines 74-93); `hitl_decision_node` in
`backend/app/graph/nodes/hitl_decision.py`.  The discriminants are
`state.get(...)` results, hence `Option String` (`none` = key absent or
`None`).
-/

/-- `route_after_match`: label `"checkpoint"` iff `match_result == FAILED`,
otherwise (including an absent discriminant) `"reconcile"`. -/
def route_after_match (match_result : Option String) : String :=
  if match_result = some "FAILED" then "checkpoint" else "reconcile"

/-- `route_after_hitl`: label `"reconcile"` iff `human_decision == ACCEPT`,
otherwise (including an absent discriminant) `"complete"`. -/
def route_after_hitl (human_decision : Option String) : String :=
  if human_decision = some "ACCEPT" then "reconcile" else "complete"

/-- The conditional-edge label map installed after MATCH_TWO_WAY in
`build_invoice_graph`: `checkpoint → CHECKPOINT_HITL`,
`reconcile → RECONCILE`. -/
def match_edge_target (label : String) : Option String :=
  if label = "checkpoint" then some "CHECKPOINT_HITL"
  else if label = "reconcile" then some "RECONCILE"
  else none

/-- The conditional-edge label map installed after HITL_DECISION in
`build_invoice_graph`: `reconcile → RECONCILE`, `complete → COMPLETE`. -/
def hitl_edge_target (label : String) : Option String :=
  if label = "reconcile" then some "RECONCILE"
  else if label = "complete" then some "COMPLETE"
  else none

/-- The fields of the HITL_DECISION delta that depend on the decision. -/
structure HitlDelta where
  next_stage : String
  status : String
  current_stage : String
deriving DecidableEq, Repr

/-- `hitl_decision_node` (`backend/app/graph/nodes/hitl_decision.py`,
lines 42-60): ACCEPT continues to RECONCILE with status RUNNING; every other
decision (REJECT, absent, anything else) goes to COMPLETE with status
MANUAL_HANDOFF. -/
def hitl_decision_node (human_decision : Option String) : HitlDelta :=
  if human_decision = some "ACCEPT" then
    ⟨"RECONCILE", "RUNNING", "HITL_DECISION"⟩
  else
    ⟨"COMPLETE", "MANUAL_HANDOFF", "HITL_DECISION"⟩

/-- C10: an absent discriminant is the continue case.  Every `match_result`
other than FAILED (including `none`) routes to RECONCILE; every
`human_decision` other than ACCEPT (including `none`) routes to COMPLETE, and
in that same non-ACCEPT case the HITL_DECISION stage assigns status
MANUAL_HANDOFF. -/
theorem routing_absent_discriminant (match_result human_decision : Option String) :
    (match_result ≠ some "FAILED" →
      match_edge_target (route_after_match match_result) = some "RECONCILE") ∧
    (human_decision ≠ some "ACCEPT" →
      hitl_edge_target (route_after_hitl human_decision) = some "COMPLETE" ∧
      (hitl_decision_node human_decision).status = "MANUAL_HANDOFF") := by
  constructor
  · intro h
    simp [route_after_match, match_edge_target, h]
  · intro h
    simp [route_after_hitl, hitl_edge_target, hitl_decision_node, h]

/-- Witness for `routing_absent_discriminant` at the fully absent state
(`match_result = none`, `human_decision = none`). -/
theorem routing_absent_discriminant_witness :
    (match_edge_target (route_after_match none) = some "RECONCILE") ∧
    (hitl_edge_target (route_after_hitl none) = some "COMPLETE" ∧
     (hitl_decision_node none).status = "MANUAL_HANDOFF") :=
  ⟨(routing_absent_discriminant none none).1 (by decide),
   (routing_absent_discriminant none none).2 (by decide)⟩

/-! ## Tool selection

`BigtoolPicker.select` lives in `backend/app/bigtool/picker.py`; the pools
and registration order in `backend/app/bigtool/registry.py`;
`DEFAULT_TOOL_SELECTIONS` in `backend/app/config.py` (lines 326-333).
The registry is modeled by the pool `available` (insertion-ordered, as
`list_tools` returns it), so `get_default_tool` is `available.head?`.
-/

/-- The six capabilities of `config.BigtoolCapability`. -/
inductive Capability where
  | ocr
  | enrichment
  | erp_connector
  | db
  | email
  | storage
deriving DecidableEq, Repr

/-- `config.DEFAULT_TOOL_SELECTIONS`. -/
def default_tool_selection : Capability → String
  | .ocr => "google_vision"
  | .enrichment => "clearbit"
  | .erp_connector => "mock_erp"
  | .db => "sqlite"
  | .email => "sendgrid"
  | .storage => "local_fs"

/-- Python substring test `needle in hay`. -/
def str_contains (hay needle : String) : Bool :=
  decide (needle.toList <:+: hay.toList)

/-- The context keys the selection rules read, with the `context.get`
defaults of `picker.py`; an absent key is the default value. -/
structure SelectContext where
  document_type : String := ""
  quality : String := "standard"
  has_tables : Bool := false
  page_count : Int := 1
  cost_sensitive : Bool := false
  is_known_vendor : Bool := false
  vendor_type : String := ""
  enrichment_type : String := ""
  erp_system : String := ""
  use_mock : Bool := false
  data_size : String := "small"
  serverless : Bool := false
  volume : String := "low"
  email_type : String := "transactional"
  aws_environment : Bool := false
  size : String := "small"
  gcp_environment : Bool := false
deriving Repr

/-- `Settings.is_development`: `app_env.lower() == "development"`. -/
def is_development (app_env : String) : Bool := app_env.toLower = "development"

/-- `Settings.is_production`: `app_env.lower() == "production"`. -/
def is_production (app_env : String) : Bool := app_env.toLower = "production"

/-- `BigtoolPicker._select_ocr`.  Each rule fires only when its candidate is
in the pool (the source nests the membership test inside the guard and falls
through otherwise); the last resort is `available[0]`. -/
def select_ocr (ctx : SelectContext) (available : List String) : Option String :=
  if (ctx.quality = "high" ∨ ctx.has_tables = true) ∧ "google_vision" ∈ available then
    some "google_vision"
  else if 5 < ctx.page_count ∧ "aws_textract" ∈ available then
    some "aws_textract"
  else if (ctx.quality = "low" ∨ ctx.cost_sensitive = true) ∧ "tesseract" ∈ available then
    some "tesseract"
  else if ctx.document_type.toLower = "invoice" ∧ "google_vision" ∈ available then
    some "google_vision"
  else available.head?

/-- `BigtoolPicker._select_enrichment`. -/
def select_enrichment (ctx : SelectContext) (available : List String) : Option String :=
  if ctx.is_known_vendor = true ∧ "vendor_db" ∈ available then
    some "vendor_db"
  else if ctx.vendor_type.toLower ∈ ["business", "b2b", "enterprise"] ∧
      "clearbit" ∈ available then
    some "clearbit"
  else if ctx.enrichment_type.toLower ∈ ["contact", "person", "employee"] ∧
      "people_data_labs" ∈ available then
    some "people_data_labs"
  else if "clearbit" ∈ available then
    some "clearbit"
  else available.head?

/-- `BigtoolPicker._select_erp`. -/
def select_erp (app_env : String) (ctx : SelectContext) (available : List String) :
    Option String :=
  if str_contains ctx.erp_system.toLower "sap" = true ∧ "sap_sandbox" ∈ available then
    some "sap_sandbox"
  else if str_contains ctx.erp_system.toLower "netsuite" = true ∧ "netsuite" ∈ available then
    some "netsuite"
  else if (is_development app_env = true ∨ ctx.use_mock = true) ∧ "mock_erp" ∈ available then
    some "mock_erp"
  else if "mock_erp" ∈ available then
    some "mock_erp"
  else available.head?

/-- `BigtoolPicker._select_db`. -/
def select_db (app_env : String) (ctx : SelectContext) (available : List String) :
    Option String :=
  if (ctx.data_size = "large" ∨ is_production app_env = true) ∧ "postgres" ∈ available then
    some "postgres"
  else if ctx.serverless = true ∧ "dynamodb" ∈ available then
    some "dynamodb"
  else if is_development app_env = true ∧ "sqlite" ∈ available then
    some "sqlite"
  else if "sqlite" ∈ available then
    some "sqlite"
  else available.head?

/-- `BigtoolPicker._select_email`. -/
def select_email (app_env : String) (ctx : SelectContext) (available : List String) :
    Option String :=
  if (ctx.volume = "high" ∨ ctx.email_type = "transactional") ∧ "sendgrid" ∈ available then
    some "sendgrid"
  else if ctx.aws_environment = true ∧ "ses" ∈ available then
    some "ses"
  else if is_development app_env = true ∧ "smtp" ∈ available then
    some "smtp"
  else if "sendgrid" ∈ available then
    some "sendgrid"
  else available.head?

/-- `BigtoolPicker._select_storage`. -/
def select_storage (app_env : String) (ctx : SelectContext) (available : List String) :
    Option String :=
  if (ctx.size = "large" ∨ is_production app_env = true) ∧ "s3" ∈ available then
    some "s3"
  else if ctx.gcp_environment = true ∧ "gcs" ∈ available then
    some "gcs"
  else if is_development app_env = true ∧ "local_fs" ∈ available then
    some "local_fs"
  else if "local_fs" ∈ available then
    some "local_fs"
  else available.head?

/-- `BigtoolPicker._rule_based_select` restricted to the six registered
capabilities (for any other capability string the source returns
`available_tools[0]`). -/
def rule_based_select (app_env : String) (capability : Capability)
    (ctx : SelectContext) (available : List String) : Option String :=
  match capability with
  | .ocr => select_ocr ctx available
  | .enrichment => select_enrichment ctx available
  | .erp_connector => select_erp app_env ctx available
  | .db => select_db app_env ctx available
  | .email => select_email app_env ctx available
  | .storage => select_storage app_env ctx available

/-- `BigtoolPicker._llm_select`, with the raw model answer as an oracle
(`none` models an exception).  The answer is accepted iff it is a pool
member, else matched against pool members by substring in either
direction. -/
def llm_select (llm_raw : Option String) (available : List String) : Option String :=
  match llm_raw with
  | none => none
  | some answer =>
    let selected := answer.trim.toLower
    if selected ∈ available then some selected
    else available.find? (fun tool =>
      str_contains selected tool || str_contains tool selected)

/-- `BigtoolPicker._get_default`: the registry default (first registered,
i.e. `available.head?`) when present, else the `DEFAULT_TOOL_SELECTIONS`
entry. -/
def get_default (capability : Capability) (available : List String) : String :=
  (available.head?).getD (default_tool_selection capability)

/-- `BigtoolPicker.select` (`backend/app/bigtool/picker.py`, lines 39-73).
`anthropic_api_key` gates the LLM fallback; `llm_raw` is the oracle answer
of that fallback. -/
def select (app_env : String) (anthropic_api_key llm_raw : Option String)
    (capability : Capability) (ctx : SelectContext) (available : List String) : String :=
  if available = [] then get_default capability available
  else
    let selected := rule_based_select app_env capability ctx available
    let selected :=
      match selected with
      | some t => some t
      | none => if anthropic_api_key.isSome then llm_select llm_raw available else none
    match selected with
    | some t => t
    | none => get_default capability available

/-- The head of a non-empty list option is a member. -/
theorem mem_of_head?_eq {α : Type _} {l : List α} {a : α} (h : l.head? = some a) :
    a ∈ l := by
  cases l with
  | nil => simp at h
  | cons b t =>
    simp only [List.head?_cons, Option.some.injEq] at h
    subst h
    exact List.mem_cons_self _ _

/-- `head?` of an append looks only at the non-empty left part. -/
theorem head?_append_left {α : Type _} (l l' : List α) (h : l ≠ []) :
    (l ++ l').head? = l.head? := by
  cases l with
  | nil => exact absurd rfl h
  | cons a t => rfl

theorem select_ocr_mem (ctx : SelectContext) (available : List String)
    (h : available ≠ []) :
    ∃ t, select_ocr ctx available = some t ∧ t ∈ available := by
  unfold select_ocr
  split_ifs with h1 h2 h3 h4
  · exact ⟨_, rfl, h1.2⟩
  · exact ⟨_, rfl, h2.2⟩
  · exact ⟨_, rfl, h3.2⟩
  · exact ⟨_, rfl, h4.2⟩
  · obtain ⟨a, t, rfl⟩ := List.exists_cons_of_ne_nil h
    exact ⟨a, rfl, List.mem_cons_self _ _⟩

theorem select_enrichment_mem (ctx : SelectContext) (available : List String)
    (h : available ≠ []) :
    ∃ t, select_enrichment ctx available = some t ∧ t ∈ available := by
  unfold select_enrichment
  split_ifs with h1 h2 h3 h4
  · exact ⟨_, rfl, h1.2⟩
  · exact ⟨_, rfl, h2.2⟩
  · exact ⟨_, rfl, h3.2⟩
  · exact ⟨_, rfl, h4⟩
  · obtain ⟨a, t, rfl⟩ := List.exists_cons_of_ne_nil h
    exact ⟨a, rfl, List.mem_cons_self _ _⟩

theorem select_erp_mem (app_env : String) (ctx : SelectContext) (available : List String)
    (h : available ≠ []) :
    ∃ t, select_erp app_env ctx available = some t ∧ t ∈ available := by
  unfold select_erp
  split_ifs with h1 h2 h3 h4
  · exact ⟨_, rfl, h1.2⟩
  · exact ⟨_, rfl, h2.2⟩
  · exact ⟨_, rfl, h3.2⟩
  · exact ⟨_, rfl, h4⟩
  · obtain ⟨a, t, rfl⟩ := List.exists_cons_of_ne_nil h
    exact ⟨a, rfl, List.mem_cons_self _ _⟩

theorem select_db_mem (app_env : String) (ctx : SelectContext) (available : List String)
    (h : available ≠ []) :
    ∃ t, select_db app_env ctx available = some t ∧ t ∈ available := by
  unfold select_db
  split_ifs with h1 h2 h3 h4
  · exact ⟨_, rfl, h1.2⟩
  · exact ⟨_, rfl, h2.2⟩
  · exact ⟨_, rfl, h3.2⟩
  · exact ⟨_, rfl, h4⟩
  · obtain ⟨a, t, rfl⟩ := List.exists_cons_of_ne_nil h
    exact ⟨a, rfl, List.mem_cons_self _ _⟩

theorem select_email_mem (app_env : String) (ctx : SelectContext) (available : List String)
    (h : available ≠ []) :
    ∃ t, select_email app_env ctx available = some t ∧ t ∈ available := by
  unfold select_email
  split_ifs with h1 h2 h3 h4
  · exact ⟨_, rfl, h1.2⟩
  · exact ⟨_, rfl, h2.2⟩
  · exact ⟨_, rfl, h3.2⟩
  · exact ⟨_, rfl, h4⟩
  · obtain ⟨a, t, rfl⟩ := List.exists_cons_of_ne_nil h
    exact ⟨a, rfl, List.mem_cons_self _ _⟩

theorem select_storage_mem (app_env : String) (ctx : SelectContext) (available : List String)
    (h : available ≠ []) :
    ∃ t, select_storage app_env ctx available = some t ∧ t ∈ available := by
  unfold select_storage
  split_ifs with h1 h2 h3 h4
  · exact ⟨_, rfl, h1.2⟩
  · exact ⟨_, rfl, h2.2⟩
  · exact ⟨_, rfl, h3.2⟩
  · exact ⟨_, rfl, h4⟩
  · obtain ⟨a, t, rfl⟩ := List.exists_cons_of_ne_nil h
    exact ⟨a, rfl, List.mem_cons_self _ _⟩

/-- On a non-empty pool, rule-based selection always produces a pool
member (so the LLM fallback and the final default are never consulted). -/
theorem rule_based_select_mem (app_env : String) (capability : Capability)
    (ctx : SelectContext) (available : List String) (h : available ≠ []) :
    ∃ t, rule_based_select app_env capability ctx available = some t ∧ t ∈ available := by
  cases capability with
  | ocr => exact select_ocr_mem ctx available h
  | enrichment => exact select_enrichment_mem ctx available h
  | erp_connector => exact select_erp_mem app_env ctx available h
  | db => exact select_db_mem app_env ctx available h
  | email => exact select_email_mem app_env ctx available h
  | storage => exact select_storage_mem app_env ctx available h

/-- C5: for every capability, context, environment and LLM oracle, a
non-empty registry pool yields a pool member, and an empty pool yields the
`DEFAULT_TOOL_SELECTIONS` capability default; an out-of-pool name is never
returned. -/
theorem select_pool_membership (app_env : String) (anthropic_api_key llm_raw : Option String)
    (capability : Capability) (ctx : SelectContext) (available : List String) :
    (available ≠ [] →
      select app_env anthropic_api_key llm_raw capability ctx available ∈ available) ∧
    (available = [] →
      select app_env anthropic_api_key llm_raw capability ctx available
        = default_tool_selection capability) := by
  constructor
  · intro h
    obtain ⟨t, ht, hmem⟩ := rule_based_select_mem app_env capability ctx available h
    simpa [select, h, ht] using hmem
  · intro h
    subst h
    simp [select, get_default]

/-- Witness for `select_pool_membership`: a one-tool OCR pool yields that
tool; the empty OCR pool yields the configured default `google_vision`. -/
theorem select_pool_membership_witness :
    select "development" none none Capability.ocr {} ["tesseract"] ∈ ["tesseract"] ∧
    select "development" none none Capability.ocr {} [] = "google_vision" :=
  ⟨(select_pool_membership "development" none none Capability.ocr {} ["tesseract"]).1
      (by simp),
   (select_pool_membership "development" none none Capability.ocr {} []).2 rfl⟩

/-! ## Checkpoint & review store

`ReviewService.process_decision` lives in
`backend/app/services/review_service.py` (lines 20-104);
`cancel_workflow` in `backend/app/api/workflows.py` (lines 508-564).
Rows carry the columns those two operations read or write;
`completed_at_set` abstracts the timestamp column to "has been set".
-/

/-- The `Checkpoint` columns touched by `process_decision`. -/
structure CheckpointRow where
  checkpoint_id : String
  workflow_id : String
  is_resolved : Bool
  resolution : Option String := none
  resolver_id : Option String := none
  resolver_notes : Option String := none
deriving DecidableEq, Repr

/-- The `HumanReview` columns touched by `process_decision`. -/
structure ReviewRow where
  checkpoint_id : String
  status : String
deriving DecidableEq, Repr

/-- The `Workflow` columns touched by `process_decision` and
`cancel_workflow` (`state_data` contributes the three review fields). -/
structure WorkflowRow where
  workflow_id : String
  status : String
  current_stage : String
  human_decision : Option String := none
  reviewer_id : Option String := none
  reviewer_notes : Option String := none
  error_message : Option String := none
  completed_at_set : Bool := false
deriving DecidableEq, Repr

/-- The `AuditLog` columns written by the two operations. -/
structure AuditRow where
  workflow_id : String
  event_type : String
  stage_id : Option String := none
  message : String
  actor_type : String
  actor_id : Option String := none
deriving DecidableEq, Repr

/-- The persistent store the two operations act on. -/
structure StoreState where
  checkpoints : List CheckpointRow
  reviews : List ReviewRow
  workflows : List WorkflowRow
  audit : List AuditRow
deriving DecidableEq, Repr

/-- The two `ValueError` kinds `process_decision` raises, distinguished by
their messages `Checkpoint not found: <id>` and
`Checkpoint already resolved: <id>`. -/
inductive ReviewError where
  | notFound (checkpoint_id : String)
  | alreadyResolved (checkpoint_id : String)
deriving DecidableEq, Repr

/-- The result map returned by `process_decision`. -/
structure DecisionOutput where
  resume_token : String
  next_stage : String
  workflow_status : String
deriving DecidableEq, Repr

/-- Oracle for `_resume_workflow`'s interaction with the compiled graph:
the final streamed state values, an empty stream, or a raised exception.
`_resume_workflow` only ever updates the workflow row. -/
inductive ResumeOutcome where
  | finished (final_status final_stage : String)
  | noStream
  | failed (message : String)
deriving DecidableEq, Repr

/-- Update the workflow rows whose id matches (the single matching row, ids
being unique). -/
def update_workflow (workflows : List WorkflowRow) (workflow_id : String)
    (u : WorkflowRow → WorkflowRow) : List WorkflowRow :=
  workflows.map (fun w => if w.workflow_id = workflow_id then u w else w)

/-- The tail of `process_decision`: commit of `_resume_workflow` for ACCEPT
(graph resumption touches only the workflow row; an exception marks the
workflow FAILED, commits, and re-raises — the inner `Except.error`), or the
`completed_at` write for REJECT. -/
def resume_or_finalize (resume : ResumeOutcome) (db : StoreState) (workflow_id : String)
    (accept : Bool) (out : DecisionOutput) : StoreState × Except String DecisionOutput :=
  if accept then
    match resume with
    | .finished final_status final_stage =>
      ({ db with workflows := update_workflow db.workflows workflow_id (fun w =>
          { w with status := final_status, current_stage := final_stage,
                   completed_at_set :=
                     if final_status = "COMPLETED" then true else w.completed_at_set }) },
       .ok out)
    | .noStream => (db, .ok out)
    | .failed message =>
      ({ db with workflows := update_workflow db.workflows workflow_id (fun w =>
          { w with status := "FAILED", error_message := some message }) },
       .error message)
  else
    ({ db with workflows := update_workflow db.workflows workflow_id (fun w =>
        { w with completed_at_set := true }) },
     .ok out)

/-- The checkpoint-row mutation performed by `process_decision` once the two
checks have passed. -/
def resolve_checkpoint (decision reviewer_id notes : String) (c : CheckpointRow) :
    CheckpointRow :=
  { c with is_resolved := true, resolution := some decision,
           resolver_id := some reviewer_id, resolver_notes := some notes }

/-- `ReviewService.process_decision`.  The `NotFound` / `AlreadyResolved`
checks precede every write; the outer `Except.error` therefore carries no
store, the store being untouched.  On success the returned store reflects the
committed transaction (checkpoint resolved, review REVIEWED, workflow row
updated, `human_decision` audit event appended) followed by
`resume_or_finalize`. -/
def process_decision (resume : ResumeOutcome) (db : StoreState)
    (checkpoint_id decision reviewer_id notes : String) :
    Except ReviewError (StoreState × Except String DecisionOutput) :=
  match db.checkpoints.find? (fun c => c.checkpoint_id = checkpoint_id) with
  | none => .error (.notFound checkpoint_id)
  | some cp =>
    if cp.is_resolved then .error (.alreadyResolved checkpoint_id)
    else
      let checkpoints := db.checkpoints.map (fun c =>
        if c.checkpoint_id = checkpoint_id then
          resolve_checkpoint decision reviewer_id notes c
        else c)
      let reviews := db.reviews.map (fun r =>
        if r.checkpoint_id = checkpoint_id then { r with status := "REVIEWED" } else r)
      let accept := decision = "ACCEPT"
      let next_stage := if accept then "RECONCILE" else "COMPLETE"
      let workflow_status := if accept then "RUNNING" else "MANUAL_HANDOFF"
      let workflows := update_workflow db.workflows cp.workflow_id (fun w =>
        { w with status := workflow_status, current_stage := next_stage,
                 human_decision := some decision, reviewer_id := some reviewer_id,
                 reviewer_notes := some notes })
      let audit := db.audit ++ [⟨cp.workflow_id, "human_decision", some "HITL_DECISION",
        "Human decision: " ++ decision, "human", some reviewer_id⟩]
      .ok (resume_or_finalize resume ⟨checkpoints, reviews, workflows, audit⟩
        cp.workflow_id accept ⟨cp.workflow_id, next_stage, workflow_status⟩)

/-- The two `HTTPException` kinds of `cancel_workflow` (404 not found,
400 bad status). -/
inductive CancelError where
  | notFound (workflow_id : String)
  | invalidStatus (status : String)
deriving DecidableEq, Repr

/-- The workflow-row mutation performed by `cancel_workflow` once the status
check has passed. -/
def cancel_update (w : WorkflowRow) : WorkflowRow :=
  { w with status := "FAILED", error_message := some "Cancelled by user",
           completed_at_set := true }

/-- `cancel_workflow` from `backend/app/api/workflows.py` (lines 508-564).
The second component of the success value is the reported
`previous_status`. -/
def cancel_workflow (db : StoreState) (workflow_id : String) :
    Except CancelError (StoreState × String) :=
  match db.workflows.find? (fun w => w.workflow_id = workflow_id) with
  | none => .error (.notFound workflow_id)
  | some wf =>
    if wf.status = "RUNNING" ∨ wf.status = "PAUSED" ∨ wf.status = "PENDING" then
      let workflows := update_workflow db.workflows workflow_id cancel_update
      let audit := db.audit ++ [⟨workflow_id, "workflow_cancelled", none,
        "Workflow cancelled. Previous status: " ++ wf.status, "user", none⟩]
      .ok ({ db with workflows := workflows, audit := audit }, wf.status)
    else
      .error (.invalidStatus wf.status)

/-- Replacing the matching checkpoint row by an id-preserving update is
reflected in `find?` by id. -/
theorem find?_update_checkpoint (l : List CheckpointRow) (cid : String)
    (u : CheckpointRow → CheckpointRow) (hu : ∀ c, (u c).checkpoint_id = c.checkpoint_id)
    (x : CheckpointRow) (hx : l.find? (fun c => c.checkpoint_id = cid) = some x) :
    (l.map (fun c => if c.checkpoint_id = cid then u c else c)).find?
      (fun c => c.checkpoint_id = cid) = some (u x) := by
  induction l with
  | nil => simp at hx
  | cons a t ih =>
    simp only [List.map_cons]
    by_cases ha : a.checkpoint_id = cid
    · rw [List.find?_cons_of_pos _ (by simp [ha])] at hx
      obtain rfl : a = x := by simpa using hx
      rw [if_pos ha, List.find?_cons_of_pos _ (by simp [hu, ha])]
    · rw [List.find?_cons_of_neg _ (by simp [ha])] at hx
      rw [if_neg ha, List.find?_cons_of_neg _ (by simp [ha])]
      exact ih hx

/-- Replacing the matching workflow row by an id-preserving update is
reflected in `find?` by id. -/
theorem find?_update_workflow (l : List WorkflowRow) (wid : String)
    (u : WorkflowRow → WorkflowRow) (hu : ∀ w, (u w).workflow_id = w.workflow_id)
    (x : WorkflowRow) (hx : l.find? (fun w => w.workflow_id = wid) = some x) :
    (update_workflow l wid u).find? (fun w => w.workflow_id = wid) = some (u x) := by
  unfold update_workflow
  induction l with
  | nil => simp at hx
  | cons a t ih =>
    simp only [List.map_cons]
    by_cases ha : a.workflow_id = wid
    · rw [List.find?_cons_of_pos _ (by simp [ha])] at hx
      obtain rfl : a = x := by simpa using hx
      rw [if_pos ha, List.find?_cons_of_pos _ (by simp [hu, ha])]
    · rw [List.find?_cons_of_neg _ (by simp [ha])] at hx
      rw [if_neg ha, List.find?_cons_of_neg _ (by simp [ha])]
      exact ih hx

/-- `resume_or_finalize` never touches the checkpoint rows. -/
theorem resume_or_finalize_checkpoints (resume : ResumeOutcome) (db : StoreState)
    (workflow_id : String) (accept : Bool) (out : DecisionOutput) :
    (resume_or_finalize resume db workflow_id accept out).1.checkpoints
      = db.checkpoints := by
  cases accept <;> cases resume <;> rfl

/-- C6: `process_decision` raises `NotFound` when no checkpoint with the id
exists and `AlreadyResolved` when the checkpoint is already resolved — in
both cases before any write, the error carrying back the untouched store —
and after a successful resolution any second call on the same checkpoint
(same decision or not) reports `AlreadyResolved` and changes nothing. -/
theorem process_decision_checkpoint_errors (resume : ResumeOutcome) (db : StoreState)
    (checkpoint_id decision reviewer_id notes : String) :
    (db.checkpoints.find? (fun c => c.checkpoint_id = checkpoint_id) = none →
      process_decision resume db checkpoint_id decision reviewer_id notes
        = .error (.notFound checkpoint_id)) ∧
    (∀ cp, db.checkpoints.find? (fun c => c.checkpoint_id = checkpoint_id) = some cp →
      cp.is_resolved = true →
      process_decision resume db checkpoint_id decision reviewer_id notes
        = .error (.alreadyResolved checkpoint_id)) ∧
    (∀ db' res, process_decision resume db checkpoint_id decision reviewer_id notes
        = .ok (db', res) →
      ∀ resume', process_decision resume' db' checkpoint_id decision reviewer_id notes
        = .error (.alreadyResolved checkpoint_id)) := by
  refine ⟨?_, ?_, ?_⟩
  · intro h
    simp [process_decision, h]
  · intro cp hcp hres
    simp [process_decision, hcp, hres]
  · intro db' res hok resume'
    cases hfind : db.checkpoints.find? (fun c => c.checkpoint_id = checkpoint_id) with
    | none => simp [process_decision, hfind] at hok
    | some cp =>
      by_cases hres : cp.is_resolved = true
      · simp [process_decision, hfind, hres] at hok
      · have hres' : cp.is_resolved = false := by simpa using hres
        simp only [process_decision, hfind, hres', Bool.false_eq_true, if_false,
          Except.ok.injEq] at hok
        have h1 := congrArg (fun p => p.1.checkpoints) hok
        simp only [resume_or_finalize_checkpoints] at h1
        have hfind' := find?_update_checkpoint db.checkpoints checkpoint_id
          (resolve_checkpoint decision reviewer_id notes) (fun _ => rfl) cp hfind
        rw [h1] at hfind'
        simp [process_decision, hfind', resolve_checkpoint]

/-- A paused workflow with one unresolved checkpoint and a pending review. -/
def store_paused : StoreState :=
  { checkpoints := [⟨"cp_1", "wf_1", false, none, none, none⟩]
    reviews := [⟨"cp_1", "PENDING"⟩]
    workflows := [⟨"wf_1", "PAUSED", "CHECKPOINT_HITL", none, none, none, none, false⟩]
    audit := [] }

/-- `store_paused` after a successful REJECT resolution of `cp_1`. -/
def store_rejected : StoreState :=
  { checkpoints := [⟨"cp_1", "wf_1", true, some "REJECT", some "rev_1", some ""⟩]
    reviews := [⟨"cp_1", "REVIEWED"⟩]
    workflows := [⟨"wf_1", "MANUAL_HANDOFF", "COMPLETE", some "REJECT", some "rev_1",
      some "", none, true⟩]
    audit := [⟨"wf_1", "human_decision", some "HITL_DECISION", "Human decision: REJECT",
      "human", some "rev_1"⟩] }

/-- Witness for `process_decision_checkpoint_errors`: on `store_paused` a
missing id raises `NotFound`, and a second REJECT of `cp_1` after the first
succeeded raises `AlreadyResolved`. -/
theorem process_decision_checkpoint_errors_witness :
    process_decision ResumeOutcome.noStream store_paused "cp_missing" "REJECT" "rev_1" ""
      = .error (.notFound "cp_missing") ∧
    process_decision ResumeOutcome.noStream store_rejected "cp_1" "REJECT" "rev_1" ""
      = .error (.alreadyResolved "cp_1") :=
  ⟨(process_decision_checkpoint_errors ResumeOutcome.noStream store_paused
      "cp_missing" "REJECT" "rev_1" "").1 (by decide),
   (process_decision_checkpoint_errors ResumeOutcome.noStream store_paused
      "cp_1" "REJECT" "rev_1" "").2.2 store_rejected
      (.ok ⟨"wf_1", "COMPLETE", "MANUAL_HANDOFF"⟩) (by rfl) ResumeOutcome.noStream⟩

/-- C7: with the target row found, `cancel_workflow` succeeds exactly on
status PENDING, RUNNING or PAUSED; on success it reports the previous
status, marks the row FAILED with `error_message = "Cancelled by user"` and
`completed_at` set, appends a `workflow_cancelled` audit event and touches
nothing else; on a COMPLETED workflow it returns the invalid-status error
(carrying back the untouched store). -/
theorem cancel_workflow_spec (db : StoreState) (workflow_id : String) (wf : WorkflowRow)
    (hfind : db.workflows.find? (fun w => w.workflow_id = workflow_id) = some wf) :
    (((cancel_workflow db workflow_id).toOption.isSome = true) ↔
      (wf.status = "PENDING" ∨ wf.status = "RUNNING" ∨ wf.status = "PAUSED")) ∧
    (∀ db' prev, cancel_workflow db workflow_id = .ok (db', prev) →
      prev = wf.status ∧
      db'.workflows.find? (fun w => w.workflow_id = workflow_id)
        = some (cancel_update wf) ∧
      db'.audit = db.audit ++ [⟨workflow_id, "workflow_cancelled", none,
        "Workflow cancelled. Previous status: " ++ wf.status, "user", none⟩] ∧
      db'.checkpoints = db.checkpoints ∧ db'.reviews = db.reviews) ∧
    (wf.status = "COMPLETED" →
      cancel_workflow db workflow_id = .error (.invalidStatus "COMPLETED")) := by
  refine ⟨?_, ?_, ?_⟩
  · by_cases hok : wf.status = "RUNNING" ∨ wf.status = "PAUSED" ∨ wf.status = "PENDING"
    · simp only [cancel_workflow, hfind, if_pos hok]
      simp [Except.toOption]
      tauto
    · simp only [cancel_workflow, hfind, if_neg hok]
      simp [Except.toOption]
      tauto
  · intro db' prev hok
    by_cases hcond : wf.status = "RUNNING" ∨ wf.status = "PAUSED" ∨ wf.status = "PENDING"
    · simp only [cancel_workflow, hfind, if_pos hcond, Except.ok.injEq, Prod.mk.injEq] at hok
      obtain ⟨hdb, hprev⟩ := hok
      subst hdb
      refine ⟨hprev.symm, ?_, rfl, rfl, rfl⟩
      exact find?_update_workflow db.workflows workflow_id cancel_update
        (fun _ => rfl) wf hfind
    · simp [cancel_workflow, hfind, if_neg hcond] at hok
  · intro hc
    have hcond : ¬(wf.status = "RUNNING" ∨ wf.status = "PAUSED" ∨ wf.status = "PENDING") := by
      rw [hc]; simp
    simp [cancel_workflow, hfind, if_neg hcond, hc]

/-- A store holding one RUNNING and one COMPLETED workflow. -/
def store_two_workflows : StoreState :=
  { checkpoints := []
    reviews := []
    workflows := [⟨"wf_run", "RUNNING", "APPROVE", none, none, none, none, false⟩,
      ⟨"wf_done", "COMPLETED", "COMPLETE", none, none, none, none, true⟩]
    audit := [] }

/-- Witness for `cancel_workflow_spec`: cancelling the RUNNING workflow
succeeds, cancelling the COMPLETED one is rejected. -/
theorem cancel_workflow_spec_witness :
    ((cancel_workflow store_two_workflows "wf_run").toOption.isSome = true) ∧
    cancel_workflow store_two_workflows "wf_done"
      = .error (.invalidStatus "COMPLETED") :=
  ⟨((cancel_workflow_spec store_two_workflows "wf_run"
      ⟨"wf_run", "RUNNING", "APPROVE", none, none, none, none, false⟩ (by decide)).1).mpr
      (by simp),
   (cancel_workflow_spec store_two_workflows "wf_done"
      ⟨"wf_done", "COMPLETED", "COMPLETE", none, none, none, none, true⟩ (by decide)).2.2
      rfl⟩

/-! ## Vendor-name normalization

`CommonServer._normalize_vendor` (`backend/app/mcp/common_server.py`,
lines 85-96): `normalized = vendor_name.strip().upper()` followed by
`normalized = " ".join(normalized.split())`.  Strings are modeled as lists
of code points (`32` is the space character).
-/

/-- Python's whitespace set for `str.strip` / `str.split()`: space, tab,
line feed, carriage return, vertical tab, form feed. -/
def is_space (c : ℕ) : Bool :=
  decide (c = 32 ∨ c = 9 ∨ c = 10 ∨ c = 13 ∨ c = 11 ∨ c = 12)

/-- `str.upper` on a single code point (ASCII letters; other code points
are fixed, matching Python on the ASCII range). -/
def upper_char (c : ℕ) : ℕ :=
  if 97 ≤ c ∧ c ≤ 122 then c - 32 else c

/-- `str.upper`. -/
def py_upper (s : List ℕ) : List ℕ := s.map upper_char

/-- `str.strip()`: drop whitespace from both ends. -/
def py_strip (s : List ℕ) : List ℕ :=
  ((s.dropWhile is_space).reverse.dropWhile is_space).reverse

/-- Accumulator form of `str.split()`; `acc` is the current word,
reversed. -/
def split_aux : List ℕ → List ℕ → List (List ℕ)
  | [], acc => if acc = [] then [] else [acc.reverse]
  | c :: cs, acc =>
    if is_space c then
      if acc = [] then split_aux cs [] else acc.reverse :: split_aux cs []
    else split_aux cs (c :: acc)

/-- `str.split()`: split on whitespace runs, producing no empty words. -/
def py_split (s : List ℕ) : List (List ℕ) := split_aux s []

/-- `" ".join`. -/
def join_space : List (List ℕ) → List ℕ
  | [] => []
  | [w] => w
  | w :: w' :: ws => w ++ 32 :: join_space (w' :: ws)

/-- The `normalized_name` produced by the `normalize_vendor` ability:
`" ".join(vendor_name.strip().upper().split())`. -/
def normalize_vendor (vendor_name : List ℕ) : List ℕ :=
  join_space (py_split (py_upper (py_strip vendor_name)))

theorem upper_char_idem (c : ℕ) : upper_char (upper_char c) = upper_char c := by
  unfold upper_char
  split_ifs <;> omega

theorem upper_char_space : upper_char 32 = 32 := by
  norm_num [upper_char]

/-- Every word produced by `split_aux` from a whitespace-free accumulator is
non-empty and whitespace-free. -/
theorem split_aux_good : ∀ (s acc : List ℕ), (∀ c ∈ acc, is_space c = false) →
    ∀ w ∈ split_aux s acc, w ≠ [] ∧ ∀ c ∈ w, is_space c = false := by
  intro s
  induction s with
  | nil =>
    intro acc hacc w hw
    simp only [split_aux] at hw
    split at hw
    · simp at hw
    · rename_i hne
      simp only [List.mem_singleton] at hw
      subst hw
      exact ⟨by simpa using hne, fun c hc => hacc c (List.mem_reverse.mp hc)⟩
  | cons c cs ih =>
    intro acc hacc w hw
    simp only [split_aux] at hw
    by_cases hc : is_space c = true
    · rw [if_pos hc] at hw
      split at hw
      · exact ih [] (by simp) w hw
      · rename_i hne
        rcases List.mem_cons.mp hw with rfl | hw'
        · exact ⟨by simpa using hne, fun x hx => hacc x (List.mem_reverse.mp hx)⟩
        · exact ih [] (by simp) w hw'
    · rw [if_neg hc] at hw
      refine ih (c :: acc) ?_ w hw
      intro x hx
      rcases List.mem_cons.mp hx with rfl | hx'
      · simpa using hc
      · exact hacc x hx'

/-- Characters of `split_aux` words come from the input or the
accumulator. -/
theorem split_aux_subset : ∀ (s acc : List ℕ), ∀ w ∈ split_aux s acc, ∀ x ∈ w,
    x ∈ s ∨ x ∈ acc := by
  intro s
  induction s with
  | nil =>
    intro acc w hw x hx
    simp only [split_aux] at hw
    split at hw
    · simp at hw
    · simp only [List.mem_singleton] at hw
      subst hw
      exact Or.inr (List.mem_reverse.mp hx)
  | cons c cs ih =>
    intro acc w hw x hx
    simp only [split_aux] at hw
    by_cases hc : is_space c = true
    · rw [if_pos hc] at hw
      split at hw
      · rcases ih [] w hw x hx with h | h
        · exact Or.inl (List.mem_cons_of_mem _ h)
        · simp at h
      · rcases List.mem_cons.mp hw with rfl | hw'
        · exact Or.inr (List.mem_reverse.mp hx)
        · rcases ih [] w hw' x hx with h | h
          · exact Or.inl (List.mem_cons_of_mem _ h)
          · simp at h
    · rw [if_neg hc] at hw
      rcases ih (c :: acc) w hw x hx with h | h
      · exact Or.inl (List.mem_cons_of_mem _ h)
      · rcases List.mem_cons.mp h with rfl | h'
        · exact Or.inl (List.mem_cons_self _ _)
        · exact Or.inr h'

/-- Consuming a whitespace-free word prefix moves it into the
accumulator. -/
theorem split_aux_append_word : ∀ (w : List ℕ), (∀ c ∈ w, is_space c = false) →
    ∀ (s acc : List ℕ), split_aux (w ++ s) acc = split_aux s (w.reverse ++ acc) := by
  intro w
  induction w with
  | nil => intro _ s acc; simp
  | cons c cw ih =>
    intro hw s acc
    have hc : is_space c = false := hw c (List.mem_cons_self _ _)
    simp only [List.cons_append, List.append_eq, split_aux, hc, Bool.false_eq_true,
      if_false]
    rw [ih (fun x hx => hw x (List.mem_cons_of_mem _ hx)) s (c :: acc)]
    simp [List.append_assoc]

/-- `join_space` of a good word list is non-empty. -/
theorem join_space_ne_nil : ∀ (w : List ℕ) (ws : List (List ℕ)), w ≠ [] →
    join_space (w :: ws) ≠ [] := by
  intro w ws hw
  cases ws with
  | nil => simpa [join_space] using hw
  | cons w2 ws2 =>
    simp only [join_space]
    intro h
    rcases List.append_eq_nil.mp h with ⟨-, h2⟩
    simp at h2

/-- Splitting the join of good words returns the words. -/
theorem split_join : ∀ (ws : List (List ℕ)),
    (∀ w ∈ ws, w ≠ [] ∧ ∀ c ∈ w, is_space c = false) →
    py_split (join_space ws) = ws := by
  intro ws
  induction ws with
  | nil => intro _; simp [py_split, join_space, split_aux]
  | cons w ws ih =>
    intro hgood
    have hw := hgood w (List.mem_cons_self _ _)
    cases ws with
    | nil =>
      show split_aux (join_space [w]) [] = [w]
      have h0 : join_space [w] = w ++ [] := by simp [join_space]
      rw [h0, split_aux_append_word w hw.2]
      simp [split_aux, hw.1]
    | cons w2 ws2 =>
      show split_aux (join_space (w :: w2 :: ws2)) [] = w :: w2 :: ws2
      have h0 : join_space (w :: w2 :: ws2) = w ++ 32 :: join_space (w2 :: ws2) := by
        simp [join_space]
      rw [h0, split_aux_append_word w hw.2]
      have h32 : is_space 32 = true := by norm_num [is_space]
      have hacc : w.reverse ++ [] ≠ [] := by simp [hw.1]
      simp only [split_aux, h32, if_pos, if_neg hacc]
      rw [List.append_nil, List.reverse_reverse]
      exact congrArg (w :: ·) (ih (fun x hx => hgood x (List.mem_cons_of_mem _ hx)))

/-- `dropWhile` is the identity when the head is not matched. -/
theorem dropWhile_eq_self (s : List ℕ)
    (h : ∀ c, s.head? = some c → is_space c = false) :
    s.dropWhile is_space = s := by
  cases s with
  | nil => rfl
  | cons a t =>
    have ha := h a rfl
    simp [List.dropWhile_cons, ha]

/-- The first character of a good join is not whitespace. -/
theorem join_space_head : ∀ (ws : List (List ℕ)),
    (∀ w ∈ ws, w ≠ [] ∧ ∀ c ∈ w, is_space c = false) →
    ∀ c, (join_space ws).head? = some c → is_space c = false := by
  intro ws hgood c hc
  cases ws with
  | nil => simp [join_space] at hc
  | cons w ws =>
    have hw := hgood w (List.mem_cons_self _ _)
    have hhead : (join_space (w :: ws)).head? = w.head? := by
      cases ws with
      | nil => rfl
      | cons w2 ws2 =>
        show (w ++ 32 :: join_space (w2 :: ws2)).head? = w.head?
        exact head?_append_left _ _ hw.1
    rw [hhead] at hc
    exact hw.2 c (mem_of_head?_eq hc)

/-- The last character (head of the reverse) of a good join is not
whitespace. -/
theorem join_space_reverse_head : ∀ (ws : List (List ℕ)),
    (∀ w ∈ ws, w ≠ [] ∧ ∀ c ∈ w, is_space c = false) →
    ∀ c, (join_space ws).reverse.head? = some c → is_space c = false := by
  intro ws
  induction ws with
  | nil => intro _ c hc; simp [join_space] at hc
  | cons w ws ih =>
    intro hgood c hc
    have hw := hgood w (List.mem_cons_self _ _)
    cases ws with
    | nil =>
      have : (join_space [w]).reverse = w.reverse := by simp [join_space]
      rw [this] at hc
      exact hw.2 c (List.mem_reverse.mp (mem_of_head?_eq hc))
    | cons w2 ws2 =>
      have hw2 := hgood w2 (List.mem_cons_of_mem _ (List.mem_cons_self _ _))
      have hJ : join_space (w2 :: ws2) ≠ [] := join_space_ne_nil w2 ws2 hw2.1
      have hrev : (join_space (w :: w2 :: ws2)).reverse
          = (join_space (w2 :: ws2)).reverse ++ [32] ++ w.reverse := by
        show (w ++ 32 :: join_space (w2 :: ws2)).reverse = _
        simp
      rw [hrev, List.append_assoc,
        head?_append_left _ _ (by simpa using hJ)] at hc
      exact ih (fun x hx => hgood x (List.mem_cons_of_mem _ hx)) c hc

/-- `py_strip` fixes the join of good words. -/
theorem strip_join (ws : List (List ℕ))
    (hgood : ∀ w ∈ ws, w ≠ [] ∧ ∀ c ∈ w, is_space c = false) :
    py_strip (join_space ws) = join_space ws := by
  unfold py_strip
  rw [dropWhile_eq_self _ (join_space_head ws hgood),
    dropWhile_eq_self _ (join_space_reverse_head ws hgood), List.reverse_reverse]

/-- Every character of a join is a space or a word character. -/
theorem join_space_chars : ∀ (ws : List (List ℕ)) (c : ℕ), c ∈ join_space ws →
    c = 32 ∨ ∃ w ∈ ws, c ∈ w := by
  intro ws
  induction ws with
  | nil => intro c hc; simp [join_space] at hc
  | cons w ws ih =>
    intro c hc
    cases ws with
    | nil =>
      exact Or.inr ⟨w, List.mem_cons_self _ _, by simpa [join_space] using hc⟩
    | cons w2 ws2 =>
      simp only [join_space, List.mem_append, List.mem_cons] at hc
      rcases hc with hc | hc | hc
      · exact Or.inr ⟨w, List.mem_cons_self _ _, hc⟩
      · exact Or.inl hc
      · rcases ih c hc with h32 | ⟨w', hw', hc'⟩
        · exact Or.inl h32
        · exact Or.inr ⟨w', List.mem_cons_of_mem _ hw', hc'⟩

/-- `py_upper` fixes a string all of whose characters it fixes. -/
theorem py_upper_eq_self (s : List ℕ) (h : ∀ c ∈ s, upper_char c = c) :
    py_upper s = s := by
  unfold py_upper
  rw [List.map_congr_left h]
  simp

/-- C9: the `normalize_vendor` transformation (trim, collapse internal
whitespace, upper-case) is idempotent on every input string. -/
theorem normalize_vendor_idempotent (vendor_name : List ℕ) :
    normalize_vendor (normalize_vendor vendor_name) = normalize_vendor vendor_name := by
  have hgood : ∀ w ∈ py_split (py_upper (py_strip vendor_name)),
      w ≠ [] ∧ ∀ c ∈ w, is_space c = false :=
    split_aux_good _ [] (by simp)
  have hupper : ∀ w ∈ py_split (py_upper (py_strip vendor_name)), ∀ c ∈ w,
      upper_char c = c := by
    intro w hw c hc
    rcases split_aux_subset _ [] w hw c hc with hmem | hmem
    · simp only [py_upper, List.mem_map] at hmem
      obtain ⟨d, -, rfl⟩ := hmem
      exact upper_char_idem d
    · simp at hmem
  have hfix : ∀ c ∈ join_space (py_split (py_upper (py_strip vendor_name))),
      upper_char c = c := by
    intro c hc
    rcases join_space_chars _ c hc with rfl | ⟨w, hw, hcw⟩
    · exact upper_char_space
    · exact hupper w hw c hcw
  show normalize_vendor (join_space (py_split (py_upper (py_strip vendor_name)))) = _
  unfold normalize_vendor
  rw [strip_join _ hgood, py_upper_eq_self _ hfix, split_join _ hgood]

end InvoiceGraph
